import Mathlib

/-!
# Verification of the database-migration transfer routine

A shallow embedding of `src/app.py` (Flask/SQLAlchemy migration script) and
proofs of the specification's claims about it.

Modelling conventions:
* sqlite/Python values flowing through legacy rows are a small `Value` type
  (NULL, booleans, integers, reals as rationals, text, dates as proleptic
  Gregorian ordinals).  Python `float` is modelled as `Rat`; no claim is about
  floating-point rounding.
* a legacy table that is absent from the uploaded file raises
  `sqlite3.OperationalError` on `SELECT`; a legacy table is therefore an
  `Option` of a list of rows, a row a `List Value`.
* the SQLAlchemy session is modelled by explicit staging: `db.session.add`
  stages a record and can raise nothing; uniqueness / NOT NULL / date-type
  constraints are enforced when `db.session.commit()` runs, which is where
  `IntegrityError` (and the sqlite Date bind errors) actually surface.
* the destination database only changes at a successful commit; every error
  path runs `db.session.rollback()` and leaves the destination unchanged.
* each run also produces a trace of events (connection open/close, begin of
  the nested transaction, the clearing deletes, one staging event per staged
  record, the staff flush, commit/rollback) for the temporal claims.
-/

/-- A sqlite/Python value as it appears in a legacy row or a staged record.
`date` carries the proleptic Gregorian ordinal (day 1 = 0001-01-01), the
representation `datetime.date.toordinal` uses. -/
inductive Value where
  | none
  | bool (b : Bool)
  | int (n : Int)
  | float (q : Rat)
  | str (s : String)
  | date (ord : Nat)
deriving DecidableEq

/-- The error kinds of the script: `operational` is `sqlite3.OperationalError`
(missing legacy table), `integrity` is `IntegrityError`, `transform` is the
`ValueError` from `datetime.strptime` or `float(str)`, `typeErr` is the
`TypeError` from `float(None)`, `unexpected` covers the rest (e.g. a short
row's `IndexError`).  Lines 270-281 of `app.py` handle every kind
identically: rollback and `return False`. -/
inductive Err where
  | operational
  | integrity
  | transform
  | typeErr
  | unexpected
deriving DecidableEq

deriving instance DecidableEq for Except

/-! ## Calendar arithmetic (`datetime.date`) -/

/-- Gregorian leap year, as `calendar.isleap` / `datetime` use it. -/
def isLeap (y : Nat) : Bool :=
  (y % 4 == 0 && y % 100 != 0) || y % 400 == 0

/-- Length of month `m` (1-12) in year `y`. -/
def daysInMonth (y m : Nat) : Nat :=
  if m = 2 then (if isLeap y then 29 else 28)
  else if m = 4 ∨ m = 6 ∨ m = 9 ∨ m = 11 then 30
  else 31

/-- Days in all years before year `y` (proleptic Gregorian, year 1 first). -/
def daysBeforeYear (y : Nat) : Nat :=
  365 * (y - 1) + (y - 1) / 4 + (y - 1) / 400 - (y - 1) / 100

/-- Days in year `y` before month `m`. -/
def daysBeforeMonth (y m : Nat) : Nat :=
  (List.range (m - 1)).foldl (fun acc i => acc + daysInMonth y (i + 1)) 0

/-- `datetime.date(y, m, d).toordinal()`. -/
def toOrdinal (y m d : Nat) : Nat :=
  daysBeforeYear y + daysBeforeMonth y m + d

/-! ## Date-string parsing (`convert_date`, app.py lines 109-112) -/

/-- Split a character list at every occurrence of `c` (like `str.split`). -/
def splitOnChar (c : Char) : List Char → List (List Char)
  | [] => [[]]
  | x :: xs =>
    match splitOnChar c xs with
    | [] => [[]]
    | r :: rs => if x = c then [] :: r :: rs else (x :: r) :: rs

/-- Numeric value of a list of ASCII digits. -/
def digitsToNat (l : List Char) : Nat :=
  l.foldl (fun n c => 10 * n + (c.toNat - 48)) 0

/-- The guard `datetime.strptime(s, "%Y-%m-%d")` imposes.  CPython's
`_strptime` matches `%Y` with exactly four digits and `%m` / `%d` with one
or two digits (leading zero optional), requires the whole string consumed,
and then `datetime(year, month, day)` checks `1 <= year` and
`day <= days_in_month`.  The `%m`/`%d` regexes already bound the values to
1-12 / 1-31, folded here into one guard. -/
def strptimeGuard (ys ms ds : List Char) : Bool :=
  ys.length == 4 && ys.all Char.isDigit &&
  1 ≤ ms.length && ms.length ≤ 2 && ms.all Char.isDigit &&
  1 ≤ ds.length && ds.length ≤ 2 && ds.all Char.isDigit &&
  1 ≤ digitsToNat ms && digitsToNat ms ≤ 12 &&
  1 ≤ digitsToNat ds && digitsToNat ds ≤ 31 &&
  1 ≤ digitsToNat ys &&
  digitsToNat ds ≤ daysInMonth (digitsToNat ys) (digitsToNat ms)

/-- `datetime.strptime(s, "%Y-%m-%d").date()`: the ordinal of the parsed
date, or the `ValueError` the call raises. -/
def strptimeYmd (s : String) : Except Err Nat :=
  match splitOnChar '-' s.toList with
  | [ys, ms, ds] =>
    if strptimeGuard ys ms ds then
      .ok (toOrdinal (digitsToNat ys) (digitsToNat ms) (digitsToNat ds))
    else .error .transform
  | _ => .error .transform

/-- `convert_date` (app.py lines 109-112): parse a string with
`strptime("%Y-%m-%d")`, pass every non-string input through unchanged. -/
def convert_date (v : Value) : Except Err Value :=
  match v with
  | .str s => (strptimeYmd s).map Value.date
  | v => .ok v

/-! ## Numeric and boolean coercion (`float(...)`, `bool(...)`) -/

/-- ASCII-digit test for `float()` literal parsing. -/
def isDigitChar (c : Char) : Bool := c.isDigit

/-- Strip leading and trailing whitespace, as `float(str)` does. -/
def trimChars (l : List Char) : List Char :=
  ((l.dropWhile Char.isWhitespace).reverse.dropWhile Char.isWhitespace).reverse

/-- `float(s)` on a decimal literal: optional sign, digits with an optional
fractional part ("3", "3.", ".5", "-2.25").  Exponents, `inf` and `nan` are
not modelled; no claim exercises them, and a string the model rejects that
CPython would accept still raises no behavioural difference downstream,
since every error kind is handled identically. -/
def parseFloatLit (s : String) : Except Err Rat :=
  let t := trimChars s.toList
  let (neg, body) :=
    match t with
    | '-' :: r => (true, r)
    | '+' :: r => (false, r)
    | r => (false, r)
  match splitOnChar '.' body with
  | [ip] =>
    if 1 ≤ ip.length && ip.all isDigitChar then
      .ok (if neg then -(digitsToNat ip : Rat) else (digitsToNat ip : Rat))
    else .error .transform
  | [ip, fp] =>
    if 1 ≤ (ip ++ fp).length && ip.all isDigitChar && fp.all isDigitChar then
      let q : Rat := (digitsToNat ip : Rat) + (digitsToNat fp : Rat) / ((10 : Rat) ^ fp.length)
      .ok (if neg then -q else q)
    else .error .transform
  | _ => .error .transform

/-- Python `float(v)`: numbers coerce, strings parse as decimal literals,
`None` and dates raise `TypeError`. -/
def pyFloat : Value → Except Err Rat
  | .none => .error .typeErr
  | .bool b => .ok (if b then 1 else 0)
  | .int n => .ok (n : Rat)
  | .float q => .ok q
  | .str s => parseFloatLit s
  | .date _ => .error .typeErr

/-- Python `bool(v)` on sqlite values: falsy are `None`, `0`, `0.0`, `""`. -/
def pyBool : Value → Bool
  | .none => false
  | .bool b => b
  | .int n => decide (n ≠ 0)
  | .float q => decide (q ≠ 0)
  | .str s => decide (s.length ≠ 0)
  | .date _ => true

/-! ## Synthesized fields (`fake_description`, `fake_date`) -/

/-- `fake_description` (app.py lines 115-116). -/
def fake_description : String :=
  "This is a sample description generated during data migration."

/-- `random.randint(lo, hi)` driven by one raw draw `r`: uniform on the
closed interval `[lo, hi]` when `r` is uniform on residues mod the interval
width. -/
def randint (lo hi r : Nat) : Nat :=
  lo + r % (hi - lo + 1)

/-- `fake_date` (app.py lines 119-120):
`datetime.now().date() + timedelta(days=random.randint(1, 365))`, with
`today` the ordinal of the current date and `r` the raw random draw. -/
def fake_date (today r : Nat) : Nat :=
  today + randint 1 365 r

/-! ## Destination schema (the `db.Model` classes, app.py lines 38-106)

Verbatim-copied columns keep type `Value`; columns the script coerces are
typed by the coercion's result (`Rat` for `float(...)`, `Bool` for
`bool(...)`, `Nat` ordinals for the always-synthesized dates). -/

/-- `Staff` (lines 38-50). -/
structure StaffRow where
  id : Value
  name : Value
  email : Value
  leave_days_remaining : Rat
  is_team_leader : Bool
  receive_notifications : Bool
deriving DecidableEq

/-- `Engagement` (lines 53-61); `start_date`/`end_date` are always the
synthesized `fake_date` ordinals. -/
structure EngagementRow where
  id : Value
  name : Value
  description : String
  start_date : Nat
  end_date : Nat
  team_leader_id : Value
  status : Value
deriving DecidableEq

/-- `Proposal` (lines 64-71). -/
structure ProposalRow where
  id : Value
  name : Value
  description : String
  due_date : Nat
  team_leader_id : Value
  status : Value
deriving DecidableEq

/-- `NonBillable` (lines 74-77). -/
structure NonBillableRow where
  id : Value
  name : Value
deriving DecidableEq

/-- `HoursLog` (lines 80-87); `date` keeps type `Value` because
`convert_date` passes non-strings through unchanged. -/
structure HoursLogRow where
  id : Value
  staff_id : Value
  category : Value
  item_id : Value
  hours : Rat
  date : Value
deriving DecidableEq

/-- `LeaveRecord` (lines 90-95), with its `(staff_id, date)` unique
constraint enforced at commit. -/
structure LeaveRecordRow where
  id : Value
  staff_id : Value
  date : Value
deriving DecidableEq

/-- `Utilization` (lines 98-106). -/
structure UtilizationRow where
  id : Value
  staff_id : Value
  week_start : Value
  client_utilization_year_to_date : Rat
  client_utilization_month_to_date : Rat
  resource_utilization_year_to_date : Rat
  resource_utilization_month_to_date : Rat
deriving DecidableEq

/-- The destination store: one list of rows per table. -/
structure DB where
  staff : List StaffRow
  engagement : List EngagementRow
  proposal : List ProposalRow
  non_billable : List NonBillableRow
  hours_log : List HoursLogRow
  leave_record : List LeaveRecordRow
  utilization : List UtilizationRow
deriving DecidableEq

/-- A destination store with no rows; also the state every transfer run
reaches after the clearing deletes (lines 139-146). -/
def emptyDB : DB := ⟨[], [], [], [], [], [], []⟩

/-- The legacy source: one optional table per legacy name; `none` models a
table absent from the uploaded file, whose `SELECT` raises
`sqlite3.OperationalError`.  Rows are tuples in native column order. -/
structure LegacyDB where
  staff : Option (List (List Value))
  engagement : Option (List (List Value))
  proposal : Option (List (List Value))
  non_billable : Option (List (List Value))
  hours_log : Option (List (List Value))
  leave_record : Option (List (List Value))
  utilization : Option (List (List Value))
deriving DecidableEq

/-- The uploaded path: either no file exists at it, or it resolves to a
file whose sqlite content is `db`.  A 0-byte file exists and opens as a
database with no tables at all. -/
inductive Source where
  | missing
  | file (db : LegacyDB)
deriving DecidableEq

/-- The legacy schema seen inside a 0-byte (or otherwise empty) sqlite
file: every table is missing. -/
def emptyFileLegacy : LegacyDB := ⟨none, none, none, none, none, none, none⟩

/-- `old_cursor.execute("SELECT * FROM t"); fetchall()`: the rows, or
`sqlite3.OperationalError` when the table does not exist. -/
def getTable : Option (List (List Value)) → Except Err (List (List Value))
  | some rows => .ok rows
  | none => .error .operational

/-- `row[i]`: tuple indexing, raising `IndexError` past the end (caught by
the catch-all `except Exception`). -/
def item (row : List Value) (i : Nat) : Except Err Value :=
  match row.get? i with
  | some v => .ok v
  | none => .error .unexpected

/-! ## Per-row transforms (the bodies of the `for row in ...` loops)

Each loop body builds one destination record from one legacy tuple.  The
first failing field access or coercion raises; all error kinds reach
handlers that behave identically, so the precise interleaving of
field-access and coercion errors is immaterial and each transform checks
its tuple accesses first. -/

/-- Lines 152-161: `Staff(id=row[0], name=row[1], email=row[2],
leave_days_remaining=float(row[3]), is_team_leader=bool(row[4]),
receive_notifications=bool(row[5]))`. -/
def transformStaff (row : List Value) : Except Err StaffRow :=
  match item row 0, item row 1, item row 2, item row 3, item row 4, item row 5 with
  | .ok i, .ok n, .ok em, .ok ld, .ok tl, .ok rn =>
    match pyFloat ld with
    | .ok q => .ok ⟨i, n, em, q, pyBool tl, pyBool rn⟩
    | .error e => .error e
  | .error e, _, _, _, _, _ => .error e
  | _, .error e, _, _, _, _ => .error e
  | _, _, .error e, _, _, _ => .error e
  | _, _, _, .error e, _, _ => .error e
  | _, _, _, _, .error e, _ => .error e
  | _, _, _, _, _, .error e => .error e

/-- Lines 171-181: `Engagement(id=row[0], name=row[1], team_leader_id=row[2],
status=row[3], description=fake_description(), start_date=fake_date(),
end_date=fake_date())`; `d1`, `d2` are the two raw random draws. -/
def transformEngagement (today d1 d2 : Nat) (row : List Value) : Except Err EngagementRow :=
  match item row 0, item row 1, item row 2, item row 3 with
  | .ok i, .ok n, .ok tl, .ok st =>
    .ok ⟨i, n, fake_description, fake_date today d1, fake_date today d2, tl, st⟩
  | .error e, _, _, _ => .error e
  | _, .error e, _, _ => .error e
  | _, _, .error e, _ => .error e
  | _, _, _, .error e => .error e

/-- Lines 188-197: `Proposal(id=row[0], name=row[1], team_leader_id=row[2],
status=row[3], description=fake_description(), due_date=fake_date())`. -/
def transformProposal (today d : Nat) (row : List Value) : Except Err ProposalRow :=
  match item row 0, item row 1, item row 2, item row 3 with
  | .ok i, .ok n, .ok tl, .ok st =>
    .ok ⟨i, n, fake_description, fake_date today d, tl, st⟩
  | .error e, _, _, _ => .error e
  | _, .error e, _, _ => .error e
  | _, _, .error e, _ => .error e
  | _, _, _, .error e => .error e

/-- Lines 204-209: `NonBillable(id=row[0], name=row[1])`. -/
def transformNonBillable (row : List Value) : Except Err NonBillableRow :=
  match item row 0, item row 1 with
  | .ok i, .ok n => .ok ⟨i, n⟩
  | .error e, _ => .error e
  | _, .error e => .error e

/-- Lines 216-225: `HoursLog(id=row[0], staff_id=row[1], category=row[2],
item_id=row[3], hours=float(row[4]), date=convert_date(row[5]))`. -/
def transformHoursLog (row : List Value) : Except Err HoursLogRow :=
  match item row 0, item row 1, item row 2, item row 3, item row 4, item row 5 with
  | .ok i, .ok si, .ok c, .ok ii, .ok hv, .ok dv =>
    match pyFloat hv, convert_date dv with
    | .ok q, .ok d => .ok ⟨i, si, c, ii, q, d⟩
    | .error e, _ => .error e
    | _, .error e => .error e
  | .error e, _, _, _, _, _ => .error e
  | _, .error e, _, _, _, _ => .error e
  | _, _, .error e, _, _, _ => .error e
  | _, _, _, .error e, _, _ => .error e
  | _, _, _, _, .error e, _ => .error e
  | _, _, _, _, _, .error e => .error e

/-- Lines 233-245: the body of the LeaveRecord loop.  The `try/except
IntegrityError` around `LeaveRecord(...)` and `db.session.add(...)` is dead
code: neither the constructor nor `session.add` checks the unique
constraint (SQLAlchemy raises `IntegrityError` only at flush/commit), and
the `ValueError` a bad date string raises is not an `IntegrityError` and
propagates out of the loop.  The transform is therefore unconditional. -/
def transformLeaveRecord (row : List Value) : Except Err LeaveRecordRow :=
  match item row 0, item row 1, item row 2 with
  | .ok i, .ok si, .ok dv =>
    match convert_date dv with
    | .ok d => .ok ⟨i, si, d⟩
    | .error e => .error e
  | .error e, _, _ => .error e
  | _, .error e, _ => .error e
  | _, _, .error e => .error e

/-- Lines 252-262: `Utilization(id=row[0], staff_id=row[1],
week_start=convert_date(row[2])`, four `float(...)` percentages). -/
def transformUtilization (row : List Value) : Except Err UtilizationRow :=
  match item row 0, item row 1, item row 2, item row 3, item row 4, item row 5, item row 6 with
  | .ok i, .ok si, .ok ws, .ok a, .ok b, .ok c, .ok d =>
    match convert_date ws, pyFloat a, pyFloat b, pyFloat c, pyFloat d with
    | .ok w, .ok qa, .ok qb, .ok qc, .ok qd => .ok ⟨i, si, w, qa, qb, qc, qd⟩
    | .error e, _, _, _, _ => .error e
    | _, .error e, _, _, _ => .error e
    | _, _, .error e, _, _ => .error e
    | _, _, _, .error e, _ => .error e
    | _, _, _, _, .error e => .error e
  | .error e, _, _, _, _, _, _ => .error e
  | _, .error e, _, _, _, _, _ => .error e
  | _, _, .error e, _, _, _, _ => .error e
  | _, _, _, .error e, _, _, _ => .error e
  | _, _, _, _, .error e, _, _ => .error e
  | _, _, _, _, _, .error e, _ => .error e
  | _, _, _, _, _, _, .error e => .error e

/-! ## Staging loops and the session -/

/-- One `for row in data: db.session.add(transform(row))` loop: the staged
records, plus how many rows were staged before a failure (each successful
iteration stages one record; the first transform error aborts the loop and
propagates).  `session.add` itself can raise nothing. -/
def stageAll (f : List Value → Except Err α) : List (List Value) → Nat × Except Err (List α)
  | [] => (0, .ok [])
  | row :: rest =>
    match f row with
    | .error e => (0, .error e)
    | .ok b =>
      let r := stageAll f rest
      (r.1 + 1, match r.2 with
                | .ok bs => .ok (b :: bs)
                | .error e => .error e)

/-- The Engagement loop, consuming two raw draws `rng k`, `rng (k+1)` per
row (start_date then end_date, the order the keyword arguments are
evaluated in). -/
def stageEngagements (today : Nat) (rng : Nat → Nat) (k : Nat) :
    List (List Value) → Nat × Except Err (List EngagementRow)
  | [] => (0, .ok [])
  | row :: rest =>
    match transformEngagement today (rng k) (rng (k + 1)) row with
    | .error e => (0, .error e)
    | .ok b =>
      let r := stageEngagements today rng (k + 2) rest
      (r.1 + 1, match r.2 with
                | .ok bs => .ok (b :: bs)
                | .error e => .error e)

/-- The Proposal loop, consuming one raw draw per row. -/
def stageProposals (today : Nat) (rng : Nat → Nat) (k : Nat) :
    List (List Value) → Nat × Except Err (List ProposalRow)
  | [] => (0, .ok [])
  | row :: rest =>
    match transformProposal today (rng k) row with
    | .error e => (0, .error e)
    | .ok b =>
      let r := stageProposals today rng (k + 1) rest
      (r.1 + 1, match r.2 with
                | .ok bs => .ok (b :: bs)
                | .error e => .error e)

/-! ## Commit-time constraints

`db.session.commit()` writes the staged records through sqlite, which is
where uniqueness and NOT NULL constraints and the Date bind processor can
reject them (`IntegrityError` / `StatementError`, both rolled back
identically by the handlers).  Foreign keys are not checked: sqlite leaves
`PRAGMA foreign_keys` off and the script never enables it.  A NULL primary
key would be auto-assigned by sqlite; no claim depends on that, and ids are
modelled as copied verbatim. -/

/-- NOT NULL check on a verbatim-copied column. -/
def notNull (v : Value) : Bool := decide (v ≠ Value.none)

/-- The sqlite `Date` column bind check: only real date values are
accepted (`None` additionally violates NOT NULL on these columns). -/
def isDateVal : Value → Bool
  | .date _ => true
  | _ => false

/-- Uniqueness of `f` over a table's rows (a UNIQUE or PRIMARY KEY
constraint).  sqlite treats NULLs in a UNIQUE column as pairwise distinct;
that corner is not modelled (plain value equality is used), which is
immaterial here: every UNIQUE column below except `leave_record.staff_id`
is also NOT NULL or built by the transfer itself, and no claim exercises a
NULL `staff_id`. -/
def nodupBy [DecidableEq β] (f : α → β) (l : List α) : Bool :=
  decide (l.map f).Nodup

/-- Everything sqlite checks when the staged records are committed. -/
def checkConstraints (d : DB) : Bool :=
  nodupBy StaffRow.id d.staff && nodupBy StaffRow.email d.staff &&
  d.staff.all (fun s => notNull s.name && notNull s.email) &&
  nodupBy EngagementRow.id d.engagement &&
  d.engagement.all (fun e => notNull e.name && notNull e.status) &&
  nodupBy ProposalRow.id d.proposal &&
  d.proposal.all (fun p => notNull p.name && notNull p.status) &&
  nodupBy NonBillableRow.id d.non_billable &&
  d.non_billable.all (fun n => notNull n.name) &&
  nodupBy HoursLogRow.id d.hours_log &&
  d.hours_log.all (fun h => notNull h.category && notNull h.item_id && isDateVal h.date) &&
  nodupBy LeaveRecordRow.id d.leave_record &&
  nodupBy (fun l : LeaveRecordRow => (l.staff_id, l.date)) d.leave_record &&
  d.leave_record.all (fun l => isDateVal l.date) &&
  nodupBy UtilizationRow.id d.utilization &&
  d.utilization.all (fun u => isDateVal u.week_start)

/-! ## The transfer orchestrator (`transfer_data`, app.py lines 123-283) -/

/-- Observable events of one run, for the temporal claims: connection
handling, the nested transaction, the clearing deletes, one staging event
per staged record, the staff flush (line 165), and the terminal
commit/rollback. -/
inductive Event where
  | connOpen
  | beginNested
  | clearTables
  | stageStaff
  | flush
  | stageEngagement
  | stageProposal
  | stageNonBillable
  | stageHoursLog
  | stageLeaveRecord
  | stageUtilization
  | commit
  | rollback
  | connClose
deriving DecidableEq

/-- The body of the `try:` block after the clearing deletes (lines
148-263): read, transform and stage each table in the script's order, with
the staff flush between the Staff loop and the Engagement read.  Returns
the staging events that happened and either the fully staged destination
contents or the first error raised. -/
def transferBody (legacy : LegacyDB) (today : Nat) (rng : Nat → Nat) :
    List Event × Except Err DB :=
  match getTable legacy.staff with
  | .error e => ([], .error e)
  | .ok staffData =>
    match (stageAll transformStaff staffData).2 with
    | .error e => (List.replicate (stageAll transformStaff staffData).1 Event.stageStaff, .error e)
    | .ok staffRows =>
      match getTable legacy.engagement with
      | .error e =>
        (List.replicate staffData.length Event.stageStaff ++ [Event.flush], .error e)
      | .ok engData =>
        match (stageEngagements today rng 0 engData).2 with
        | .error e =>
          (List.replicate staffData.length Event.stageStaff ++ [Event.flush] ++
            List.replicate (stageEngagements today rng 0 engData).1 Event.stageEngagement, .error e)
        | .ok engRows =>
          match getTable legacy.proposal with
          | .error e =>
            (List.replicate staffData.length Event.stageStaff ++ [Event.flush] ++
              List.replicate engData.length Event.stageEngagement, .error e)
          | .ok propData =>
            match (stageProposals today rng (2 * engData.length) propData).2 with
            | .error e =>
              (List.replicate staffData.length Event.stageStaff ++ [Event.flush] ++
                List.replicate engData.length Event.stageEngagement ++
                List.replicate (stageProposals today rng (2 * engData.length) propData).1
                  Event.stageProposal, .error e)
            | .ok propRows =>
              match getTable legacy.non_billable with
              | .error e =>
                (List.replicate staffData.length Event.stageStaff ++ [Event.flush] ++
                  List.replicate engData.length Event.stageEngagement ++
                  List.replicate propData.length Event.stageProposal, .error e)
              | .ok nbData =>
                match (stageAll transformNonBillable nbData).2 with
                | .error e =>
                  (List.replicate staffData.length Event.stageStaff ++ [Event.flush] ++
                    List.replicate engData.length Event.stageEngagement ++
                    List.replicate propData.length Event.stageProposal ++
                    List.replicate (stageAll transformNonBillable nbData).1
                      Event.stageNonBillable, .error e)
                | .ok nbRows =>
                  match getTable legacy.hours_log with
                  | .error e =>
                    (List.replicate staffData.length Event.stageStaff ++ [Event.flush] ++
                      List.replicate engData.length Event.stageEngagement ++
                      List.replicate propData.length Event.stageProposal ++
                      List.replicate nbData.length Event.stageNonBillable, .error e)
                  | .ok hlData =>
                    match (stageAll transformHoursLog hlData).2 with
                    | .error e =>
                      (List.replicate staffData.length Event.stageStaff ++ [Event.flush] ++
                        List.replicate engData.length Event.stageEngagement ++
                        List.replicate propData.length Event.stageProposal ++
                        List.replicate nbData.length Event.stageNonBillable ++
                        List.replicate (stageAll transformHoursLog hlData).1
                          Event.stageHoursLog, .error e)
                    | .ok hlRows =>
                      match getTable legacy.leave_record with
                      | .error e =>
                        (List.replicate staffData.length Event.stageStaff ++ [Event.flush] ++
                          List.replicate engData.length Event.stageEngagement ++
                          List.replicate propData.length Event.stageProposal ++
                          List.replicate nbData.length Event.stageNonBillable ++
                          List.replicate hlData.length Event.stageHoursLog, .error e)
                      | .ok lrData =>
                        match (stageAll transformLeaveRecord lrData).2 with
                        | .error e =>
                          (List.replicate staffData.length Event.stageStaff ++ [Event.flush] ++
                            List.replicate engData.length Event.stageEngagement ++
                            List.replicate propData.length Event.stageProposal ++
                            List.replicate nbData.length Event.stageNonBillable ++
                            List.replicate hlData.length Event.stageHoursLog ++
                            List.replicate (stageAll transformLeaveRecord lrData).1
                              Event.stageLeaveRecord, .error e)
                        | .ok lrRows =>
                          match getTable legacy.utilization with
                          | .error e =>
                            (List.replicate staffData.length Event.stageStaff ++ [Event.flush] ++
                              List.replicate engData.length Event.stageEngagement ++
                              List.replicate propData.length Event.stageProposal ++
                              List.replicate nbData.length Event.stageNonBillable ++
                              List.replicate hlData.length Event.stageHoursLog ++
                              List.replicate lrData.length Event.stageLeaveRecord, .error e)
                          | .ok utData =>
                            match (stageAll transformUtilization utData).2 with
                            | .error e =>
                              (List.replicate staffData.length Event.stageStaff ++ [Event.flush] ++
                                List.replicate engData.length Event.stageEngagement ++
                                List.replicate propData.length Event.stageProposal ++
                                List.replicate nbData.length Event.stageNonBillable ++
                                List.replicate hlData.length Event.stageHoursLog ++
                                List.replicate lrData.length Event.stageLeaveRecord ++
                                List.replicate (stageAll transformUtilization utData).1
                                  Event.stageUtilization, .error e)
                            | .ok utRows =>
                              (List.replicate staffData.length Event.stageStaff ++ [Event.flush] ++
                                List.replicate engData.length Event.stageEngagement ++
                                List.replicate propData.length Event.stageProposal ++
                                List.replicate nbData.length Event.stageNonBillable ++
                                List.replicate hlData.length Event.stageHoursLog ++
                                List.replicate lrData.length Event.stageLeaveRecord ++
                                List.replicate utData.length Event.stageUtilization,
                                .ok ⟨staffRows, engRows, propRows, nbRows, hlRows, lrRows, utRows⟩)

/-- The outcome of one `transfer_data` call: the returned boolean, the
destination store afterwards, and the event trace. -/
structure TransferOutcome where
  success : Bool
  db : DB
  events : List Event
deriving DecidableEq

/-- `transfer_data(old_db_path)` (lines 123-283).  A missing path returns
`False` before anything is opened (lines 126-128).  Otherwise the source
connection is opened, the nested transaction begins, every destination
table is cleared (lines 139-146, the rows all staged for deletion inside
the transaction), the body stages every table, and the run commits (line
266) or, on any raised error or a commit-time constraint violation, rolls
everything back and returns `False` (lines 270-281).  The `finally:` closes
the source connection on each of those paths (lines 282-283). -/
def transfer_data (src : Source) (dest : DB) (today : Nat) (rng : Nat → Nat) :
    TransferOutcome :=
  match src with
  | .missing => ⟨false, dest, []⟩
  | .file legacy =>
    match (transferBody legacy today rng).2 with
    | .error _ =>
      ⟨false, dest,
        [Event.connOpen, Event.beginNested, Event.clearTables] ++
          (transferBody legacy today rng).1 ++ [Event.rollback, Event.connClose]⟩
    | .ok staged =>
      if checkConstraints staged then
        ⟨true, staged,
          [Event.connOpen, Event.beginNested, Event.clearTables] ++
            (transferBody legacy today rng).1 ++ [Event.commit, Event.connClose]⟩
      else
        ⟨false, dest,
          [Event.connOpen, Event.beginNested, Event.clearTables] ++
            (transferBody legacy today rng).1 ++ [Event.rollback, Event.connClose]⟩

/-! ## The phase discipline of a run's trace

`transfer_data` emits events in a fixed phase order: connection open, begin
of the transaction, clearing deletes, staff staging, the flush, dependent
staging, commit/rollback, connection close.  Sortedness of the trace under
`phase` is the backbone of the temporal claims. -/

/-- The phase of an event within a run. -/
def phase : Event → Nat
  | .connOpen => 0
  | .beginNested => 1
  | .clearTables => 2
  | .stageStaff => 3
  | .flush => 4
  | .stageEngagement => 5
  | .stageProposal => 5
  | .stageNonBillable => 5
  | .stageHoursLog => 5
  | .stageLeaveRecord => 5
  | .stageUtilization => 5
  | .commit => 6
  | .rollback => 6
  | .connClose => 7

/-- Staging events of the tables that depend on Staff. -/
def isDependentStage : Event → Bool
  | .stageEngagement => true
  | .stageProposal => true
  | .stageNonBillable => true
  | .stageHoursLog => true
  | .stageLeaveRecord => true
  | .stageUtilization => true
  | _ => false

/-- A trace segment that is phase-sorted with all phases in `[lo, hi]`. -/
def Blocky (lo hi : Nat) (l : List Event) : Prop :=
  l.Sorted (fun a b => phase a ≤ phase b) ∧ ∀ e ∈ l, lo ≤ phase e ∧ phase e ≤ hi

/-- The fields of an Engagement row that do not come from `fake_date`. -/
def engCore (e : EngagementRow) : Value × Value × String × Value × Value :=
  (e.id, e.name, e.description, e.team_leader_id, e.status)

/-- The fields of a Proposal row that do not come from `fake_date`. -/
def propCore (p : ProposalRow) : Value × Value × String × Value × Value :=
  (p.id, p.name, p.description, p.team_leader_id, p.status)

/-! ## The two readings of the date-format contract (claim C6) -/

/-- The strict reading of "matches `YYYY-MM-DD`": zero-padded four-two-two
digit groups that denote a valid proleptic Gregorian calendar date. -/
def strictYmdFormat (s : String) : Bool :=
  match splitOnChar '-' s.toList with
  | [ys, ms, ds] =>
    ys.length == 4 && ms.length == 2 && ds.length == 2 &&
    ys.all Char.isDigit && ms.all Char.isDigit && ds.all Char.isDigit &&
    1 ≤ digitsToNat ys && 1 ≤ digitsToNat ms && digitsToNat ms ≤ 12 &&
    1 ≤ digitsToNat ds && digitsToNat ds ≤ daysInMonth (digitsToNat ys) (digitsToNat ms)
  | _ => false

/-- The amended contract's guard on the three dash-separated groups: a
four-digit year and one-or-two-digit month and day groups (zero padding
optional), in range, denoting a valid calendar date of a positive year. -/
def lenientGuard (ys ms ds : List Char) : Bool :=
  ys.length == 4 && ys.all Char.isDigit &&
  1 ≤ ms.length && ms.length ≤ 2 && ms.all Char.isDigit &&
  1 ≤ ds.length && ds.length ≤ 2 && ds.all Char.isDigit &&
  1 ≤ digitsToNat ys && 1 ≤ digitsToNat ms && digitsToNat ms ≤ 12 &&
  1 ≤ digitsToNat ds && digitsToNat ds ≤ daysInMonth (digitsToNat ys) (digitsToNat ms)

/-- The amended contract: three dash-separated groups passing
`lenientGuard`. -/
def lenientYmdFormat (s : String) : Bool :=
  match splitOnChar '-' s.toList with
  | [ys, ms, ds] => lenientGuard ys ms ds
  | _ => false

/-! ## Concrete legacy sources used in the closed theorems -/

/-- A well-formed one-row-per-table legacy source. -/
def demoLegacy : LegacyDB :=
  { staff := some [[.int 1, .str "Ann", .str "ann@example.com", .int 3, .int 0, .int 1]],
    engagement := some [[.int 1, .str "Eng", .int 1, .str "open"]],
    proposal := some [[.int 1, .str "Prop", .int 1, .str "draft"]],
    non_billable := some [[.int 1, .str "Admin"]],
    hours_log := some [[.int 1, .int 1, .str "work", .int 2, .int 8, .str "2024-01-02"]],
    leave_record := some [[.int 1, .int 1, .str "2024-01-03"]],
    utilization := some [[.int 1, .int 1, .str "2024-01-01", .int 1, .int 0, .int 1, .int 0]] }

/-- A legacy source with two LeaveRecord rows sharing `(staff_id, date)`. -/
def dupLeaveLegacy : LegacyDB :=
  { staff := some [[.int 1, .str "Ann", .str "ann@example.com", .int 3, .int 0, .int 1]],
    engagement := some [],
    proposal := some [],
    non_billable := some [],
    hours_log := some [],
    leave_record := some [[.int 1, .int 1, .str "2024-01-03"],
                          [.int 2, .int 1, .str "2024-01-03"]],
    utilization := some [] }

/-- A legacy source whose hours_log holds the invalid calendar date
`"2024-02-30"`. -/
def badDateLegacy : LegacyDB :=
  { staff := some [],
    engagement := some [],
    proposal := some [],
    non_billable := some [],
    hours_log := some [[.int 1, .int 1, .str "work", .int 2, .int 8, .str "2024-02-30"]],
    leave_record := some [],
    utilization := some [] }

/-- A fixed raw-draw stream for the closed runs. -/
def zeroRng : Nat → Nat := fun _ => 0

-- sanity examples of the parsing model (CPython-checked behaviours)
example : (strptimeYmd "2024-02-29").isOk = true := by decide
example : (strptimeYmd "2023-02-29").isOk = false := by decide
example : (strptimeYmd "2024-02-30").isOk = false := by decide
example : (strptimeYmd "2024-2-3").isOk = true := by decide
example : (strptimeYmd "2024-13-01").isOk = false := by decide
example : (strptimeYmd "2024-02-03-").isOk = false := by decide
example : (strptimeYmd "0000-01-01").isOk = false := by decide
example : strptimeYmd "2024-01-01" = .ok (toOrdinal 2024 1 1) := by decide
example : (parseFloatLit "3.5").isOk = true := by decide
example : (parseFloatLit "-2.25").isOk = true := by decide
example : (parseFloatLit "abc").isOk = false := by decide

example : (transfer_data (.file demoLegacy) emptyDB 100 zeroRng).success = true := by decide
example : (transfer_data (.file dupLeaveLegacy) emptyDB 100 zeroRng).success = false := by decide
example : (transfer_data (.file badDateLegacy) emptyDB 100 zeroRng).success = false := by decide

theorem blocky_nil {lo hi : Nat} : Blocky lo hi [] :=
  ⟨List.sorted_nil, by simp⟩

theorem blocky_replicate {lo hi : Nat} (n : Nat) (e : Event)
    (h1 : lo ≤ phase e) (h2 : phase e ≤ hi) : Blocky lo hi (List.replicate n e) := by
  constructor
  · induction n with
    | zero => exact List.sorted_nil
    | succ n ih =>
      rw [List.replicate_succ]
      refine List.pairwise_cons.2 ⟨?_, ih⟩
      intro b hb
      rw [List.eq_of_mem_replicate hb]
  · intro x hx
    rw [List.eq_of_mem_replicate hx]
    exact ⟨h1, h2⟩

theorem blocky_append {lo m hi : Nat} {A B : List Event}
    (hA : Blocky lo m A) (hB : Blocky m hi B) (h1 : lo ≤ m) (h2 : m ≤ hi) :
    Blocky lo hi (A ++ B) := by
  refine ⟨List.pairwise_append.2 ⟨hA.1, hB.1, ?_⟩, ?_⟩
  · intro a ha b hb
    exact le_trans (hA.2 a ha).2 (hB.2 b hb).1
  · intro e he
    rcases List.mem_append.1 he with h | h
    · exact ⟨(hA.2 e h).1, le_trans (hA.2 e h).2 h2⟩
    · exact ⟨le_trans h1 (hB.2 e h).1, (hB.2 e h).2⟩

/-- Appending a block of dependent-phase (5) events keeps a `[3,5]` block. -/
theorem blocky_snoc5 (e : Event) (he : phase e = 5) {A : List Event}
    (h : Blocky 3 5 A) (n : Nat) : Blocky 3 5 (A ++ List.replicate n e) :=
  blocky_append h (blocky_replicate n e (le_of_eq he.symm) (le_of_eq he)) (by omega) (by omega)

theorem blocky_staff_flush (n : Nat) :
    Blocky 3 5 (List.replicate n Event.stageStaff ++ [Event.flush]) := by
  have h1 : Blocky 3 4 (List.replicate n Event.stageStaff) :=
    blocky_replicate n Event.stageStaff (by decide) (by decide)
  have h2 : Blocky 4 5 [Event.flush] := ⟨by decide, by decide⟩
  exact blocky_append h1 h2 (by omega) (by omega)

theorem blocky_upto_eng (n1 n2 : Nat) :
    Blocky 3 5 (List.replicate n1 Event.stageStaff ++ [Event.flush] ++
      List.replicate n2 Event.stageEngagement) :=
  blocky_snoc5 Event.stageEngagement rfl (blocky_staff_flush n1) n2

theorem blocky_upto_prop (n1 n2 n3 : Nat) :
    Blocky 3 5 (List.replicate n1 Event.stageStaff ++ [Event.flush] ++
      List.replicate n2 Event.stageEngagement ++ List.replicate n3 Event.stageProposal) :=
  blocky_snoc5 Event.stageProposal rfl (blocky_upto_eng n1 n2) n3

theorem blocky_upto_nb (n1 n2 n3 n4 : Nat) :
    Blocky 3 5 (List.replicate n1 Event.stageStaff ++ [Event.flush] ++
      List.replicate n2 Event.stageEngagement ++ List.replicate n3 Event.stageProposal ++
      List.replicate n4 Event.stageNonBillable) :=
  blocky_snoc5 Event.stageNonBillable rfl (blocky_upto_prop n1 n2 n3) n4

theorem blocky_upto_hl (n1 n2 n3 n4 n5 : Nat) :
    Blocky 3 5 (List.replicate n1 Event.stageStaff ++ [Event.flush] ++
      List.replicate n2 Event.stageEngagement ++ List.replicate n3 Event.stageProposal ++
      List.replicate n4 Event.stageNonBillable ++ List.replicate n5 Event.stageHoursLog) :=
  blocky_snoc5 Event.stageHoursLog rfl (blocky_upto_nb n1 n2 n3 n4) n5

theorem blocky_upto_lr (n1 n2 n3 n4 n5 n6 : Nat) :
    Blocky 3 5 (List.replicate n1 Event.stageStaff ++ [Event.flush] ++
      List.replicate n2 Event.stageEngagement ++ List.replicate n3 Event.stageProposal ++
      List.replicate n4 Event.stageNonBillable ++ List.replicate n5 Event.stageHoursLog ++
      List.replicate n6 Event.stageLeaveRecord) :=
  blocky_snoc5 Event.stageLeaveRecord rfl (blocky_upto_hl n1 n2 n3 n4 n5) n6

theorem blocky_upto_ut (n1 n2 n3 n4 n5 n6 n7 : Nat) :
    Blocky 3 5 (List.replicate n1 Event.stageStaff ++ [Event.flush] ++
      List.replicate n2 Event.stageEngagement ++ List.replicate n3 Event.stageProposal ++
      List.replicate n4 Event.stageNonBillable ++ List.replicate n5 Event.stageHoursLog ++
      List.replicate n6 Event.stageLeaveRecord ++ List.replicate n7 Event.stageUtilization) :=
  blocky_snoc5 Event.stageUtilization rfl (blocky_upto_lr n1 n2 n3 n4 n5 n6) n7

set_option maxHeartbeats 2000000 in
/-- The staging events of the body sit in phases 3-5 and are phase-sorted. -/
theorem transferBody_blocky (legacy : LegacyDB) (today : Nat) (rng : Nat → Nat) :
    Blocky 3 5 (transferBody legacy today rng).1 := by
  unfold transferBody
  repeat' split
  all_goals first
    | exact blocky_nil
    | exact blocky_replicate _ _ (by decide) (by decide)
    | exact blocky_staff_flush _
    | exact blocky_upto_eng _ _
    | exact blocky_upto_prop _ _ _
    | exact blocky_upto_nb _ _ _ _
    | exact blocky_upto_hl _ _ _ _ _
    | exact blocky_upto_lr _ _ _ _ _ _
    | exact blocky_upto_ut _ _ _ _ _ _ _

/-- The whole trace of a run is phase-sorted. -/
theorem transfer_events_sorted (s : Source) (dest : DB) (today : Nat) (rng : Nat → Nat) :
    ((transfer_data s dest today rng).events).Sorted (fun a b => phase a ≤ phase b) := by
  have hpre : Blocky 0 3 [Event.connOpen, Event.beginNested, Event.clearTables] :=
    ⟨by decide, by decide⟩
  have hroll : Blocky 5 7 [Event.rollback, Event.connClose] := ⟨by decide, by decide⟩
  have hcomm : Blocky 5 7 [Event.commit, Event.connClose] := ⟨by decide, by decide⟩
  cases s with
  | missing => exact List.sorted_nil
  | file legacy =>
    have hbody := transferBody_blocky legacy today rng
    rcases hres : (transferBody legacy today rng).2 with e | staged
    · simp only [transfer_data, hres]
      exact (blocky_append (blocky_append hpre hbody (by omega) (by omega))
        hroll (by omega) (by omega)).1
    · rcases hchk : checkConstraints staged with _ | _
      · simp only [transfer_data, hres, hchk, Bool.false_eq_true, if_false]
        exact (blocky_append (blocky_append hpre hbody (by omega) (by omega))
          hroll (by omega) (by omega)).1
      · simp only [transfer_data, hres, hchk, if_true]
        exact (blocky_append (blocky_append hpre hbody (by omega) (by omega))
          hcomm (by omega) (by omega)).1

/-! ## Properties of the staging loops -/

theorem stageAll_ok {α : Type} (f : List Value → Except Err α) :
    ∀ (rows : List (List Value)) (bs : List α),
      (stageAll f rows).2 = .ok bs → List.Forall₂ (fun r b => f r = .ok b) rows bs := by
  intro rows
  induction rows with
  | nil =>
    intro bs h
    simp only [stageAll] at h
    cases h
    exact List.Forall₂.nil
  | cons row rest ih =>
    intro bs h
    simp only [stageAll] at h
    rcases hf : f row with e | b
    · rw [hf] at h
      simp at h
    · rw [hf] at h
      rcases hr : (stageAll f rest).2 with e | bs1
      · rw [hr] at h
        simp at h
      · rw [hr] at h
        simp only at h
        cases h
        exact List.Forall₂.cons hf (ih bs1 hr)

/-- A member of the left list of a `Forall₂` has a related member on the
right. -/
theorem forall2_mem_left {α β : Type} {R : α → β → Prop} :
    ∀ {l1 : List α} {l2 : List β}, List.Forall₂ R l1 l2 → ∀ {a}, a ∈ l1 → ∃ b ∈ l2, R a b := by
  intro l1 l2 h
  induction h with
  | nil => intro a ha; cases ha
  | cons hR _ ih =>
    intro a ha
    rcases List.mem_cons.1 ha with rfl | ha
    · exact ⟨_, List.mem_cons_self _ _, hR⟩
    · rcases ih ha with ⟨b, hb, hRb⟩
      exact ⟨b, List.mem_cons_of_mem _ hb, hRb⟩

/-- The synthesized dates of a staged Engagement row. -/
theorem transformEngagement_ok_dates {today d1 d2 : Nat} {row : List Value}
    {e : EngagementRow} (h : transformEngagement today d1 d2 row = .ok e) :
    e.start_date = fake_date today d1 ∧ e.end_date = fake_date today d2 := by
  unfold transformEngagement at h
  split at h <;> simp_all
  cases h
  exact ⟨rfl, rfl⟩

/-- The synthesized date of a staged Proposal row. -/
theorem transformProposal_ok_date {today d : Nat} {row : List Value}
    {p : ProposalRow} (h : transformProposal today d row = .ok p) :
    p.due_date = fake_date today d := by
  unfold transformProposal at h
  split at h <;> simp_all
  cases h
  rfl

/-- Every Engagement row a run stages carries two `fake_date` values. -/
theorem stageEngagements_dates {today : Nat} {rng : Nat → Nat} :
    ∀ {k : Nat} {rows : List (List Value)} {bs : List EngagementRow},
      (stageEngagements today rng k rows).2 = .ok bs →
      ∀ e ∈ bs, (∃ d, e.start_date = fake_date today d) ∧
        (∃ d, e.end_date = fake_date today d) := by
  intro k rows
  induction rows generalizing k with
  | nil =>
    intro bs h
    simp only [stageEngagements] at h
    cases h
    intro e he
    cases he
  | cons row rest ih =>
    intro bs h
    simp only [stageEngagements] at h
    rcases hf : transformEngagement today (rng k) (rng (k + 1)) row with e | b
    · rw [hf] at h
      simp at h
    · rw [hf] at h
      rcases hr : (stageEngagements today rng (k + 2) rest).2 with e | bs1
      · rw [hr] at h
        simp at h
      · rw [hr] at h
        simp only at h
        cases h
        intro e he
        rcases List.mem_cons.1 he with rfl | he
        · rcases transformEngagement_ok_dates hf with ⟨h1, h2⟩
          exact ⟨⟨rng k, h1⟩, ⟨rng (k + 1), h2⟩⟩
        · exact ih hr e he

/-- Every Proposal row a run stages carries a `fake_date` due date. -/
theorem stageProposals_dates {today : Nat} {rng : Nat → Nat} :
    ∀ {k : Nat} {rows : List (List Value)} {bs : List ProposalRow},
      (stageProposals today rng k rows).2 = .ok bs →
      ∀ p ∈ bs, ∃ d, p.due_date = fake_date today d := by
  intro k rows
  induction rows generalizing k with
  | nil =>
    intro bs h
    simp only [stageProposals] at h
    cases h
    intro p hp
    cases hp
  | cons row rest ih =>
    intro bs h
    simp only [stageProposals] at h
    rcases hf : transformProposal today (rng k) row with e | b
    · rw [hf] at h
      simp at h
    · rw [hf] at h
      rcases hr : (stageProposals today rng (k + 1) rest).2 with e | bs1
      · rw [hr] at h
        simp at h
      · rw [hr] at h
        simp only at h
        cases h
        intro p hp
        rcases List.mem_cons.1 hp with rfl | hp
        · exact ⟨rng k, transformProposal_ok_date hf⟩
        · exact ih hr p hp

/-! ## Anatomy of a successful body run -/

set_option maxHeartbeats 2000000 in
/-- A body run that stages everything read every table and staged each with
its loop, in order; the staged contents are exactly the per-table staging
results. -/
theorem body_ok_parts {legacy : LegacyDB} {today : Nat} {rng : Nat → Nat} {db : DB}
    (h : (transferBody legacy today rng).2 = .ok db) :
    ∃ sd ed pd nd hd ld ud,
      legacy.staff = some sd ∧ legacy.engagement = some ed ∧ legacy.proposal = some pd ∧
      legacy.non_billable = some nd ∧ legacy.hours_log = some hd ∧
      legacy.leave_record = some ld ∧ legacy.utilization = some ud ∧
      (stageAll transformStaff sd).2 = .ok db.staff ∧
      (stageEngagements today rng 0 ed).2 = .ok db.engagement ∧
      (stageProposals today rng (2 * ed.length) pd).2 = .ok db.proposal ∧
      (stageAll transformNonBillable nd).2 = .ok db.non_billable ∧
      (stageAll transformHoursLog hd).2 = .ok db.hours_log ∧
      (stageAll transformLeaveRecord ld).2 = .ok db.leave_record ∧
      (stageAll transformUtilization ud).2 = .ok db.utilization := by
  unfold transferBody at h
  rcases hsd : legacy.staff with _ | sd <;> rw [hsd] at h
  · simp [getTable] at h
  simp only [getTable] at h
  rcases hs : (stageAll transformStaff sd).2 with e | staffRows <;> rw [hs] at h
  · simp at h
  rcases hed : legacy.engagement with _ | ed <;> rw [hed] at h
  · simp [getTable] at h
  simp only [getTable] at h
  rcases he : (stageEngagements today rng 0 ed).2 with e | engRows <;> rw [he] at h
  · simp at h
  rcases hpd : legacy.proposal with _ | pd <;> rw [hpd] at h
  · simp [getTable] at h
  simp only [getTable] at h
  rcases hp : (stageProposals today rng (2 * ed.length) pd).2 with e | propRows <;> rw [hp] at h
  · simp at h
  rcases hnd : legacy.non_billable with _ | nd <;> rw [hnd] at h
  · simp [getTable] at h
  simp only [getTable] at h
  rcases hn : (stageAll transformNonBillable nd).2 with e | nbRows <;> rw [hn] at h
  · simp at h
  rcases hhd : legacy.hours_log with _ | hd <;> rw [hhd] at h
  · simp [getTable] at h
  simp only [getTable] at h
  rcases hh : (stageAll transformHoursLog hd).2 with e | hlRows <;> rw [hh] at h
  · simp at h
  rcases hld : legacy.leave_record with _ | ld <;> rw [hld] at h
  · simp [getTable] at h
  simp only [getTable] at h
  rcases hl : (stageAll transformLeaveRecord ld).2 with e | lrRows <;> rw [hl] at h
  · simp at h
  rcases hud : legacy.utilization with _ | ud <;> rw [hud] at h
  · simp [getTable] at h
  simp only [getTable] at h
  rcases hu : (stageAll transformUtilization ud).2 with e | utRows <;> rw [hu] at h
  · simp at h
  simp only at h
  cases h
  exact ⟨sd, ed, pd, nd, hd, ld, ud, rfl, rfl, rfl, rfl, rfl, rfl, rfl,
    hs, he, hp, hn, hh, hl, hu⟩

/-- A successful run committed exactly the staged contents, and they passed
the commit-time constraints. -/
theorem transfer_ok_body {legacy : LegacyDB} {dest : DB} {today : Nat} {rng : Nat → Nat}
    (h : (transfer_data (.file legacy) dest today rng).success = true) :
    (transferBody legacy today rng).2 = .ok ((transfer_data (.file legacy) dest today rng).db) ∧
      checkConstraints ((transfer_data (.file legacy) dest today rng).db) = true := by
  rcases hres : (transferBody legacy today rng).2 with e | staged
  · simp [transfer_data, hres] at h
  · rcases hchk : checkConstraints staged with _ | _
    · simp [transfer_data, hres, hchk] at h
    · refine ⟨?_, ?_⟩ <;> simp [transfer_data, hres, hchk]

/-- A failed run (of an existing file) left the destination unchanged and
recorded a rollback. -/
theorem transfer_failed_rollback {legacy : LegacyDB} {dest : DB} {today : Nat} {rng : Nat → Nat}
    (h : (transfer_data (.file legacy) dest today rng).success = false) :
    (transfer_data (.file legacy) dest today rng).db = dest ∧
      Event.rollback ∈ (transfer_data (.file legacy) dest today rng).events := by
  rcases hres : (transferBody legacy today rng).2 with e | staged
  · simp only [transfer_data, hres]
    simp
  · rcases hchk : checkConstraints staged with _ | _
    · simp only [transfer_data, hres, hchk, Bool.false_eq_true, if_false]
      simp
    · simp only [transfer_data, hres, hchk, if_true] at h
      cases h

/-- A body error makes the run fail. -/
theorem transfer_body_err_fails {legacy : LegacyDB} {dest : DB} {today : Nat} {rng : Nat → Nat}
    (h : (transferBody legacy today rng).2.isOk = false) :
    (transfer_data (.file legacy) dest today rng).success = false := by
  rcases hres : (transferBody legacy today rng).2 with e | staged
  · simp [transfer_data, hres]
  · rw [hres] at h
    simp [Except.isOk, Except.toBool] at h

/-! ## Independence of the deterministic tables from the clock and the RNG -/

/-- Two Engagement transforms of the same row, under different clocks and
draws, fail identically or succeed with the same non-date fields. -/
theorem transformEngagement_compare (t1 d1 d2 t2 d3 d4 : Nat) (row : List Value) :
    (∀ e, transformEngagement t1 d1 d2 row = .error e →
      transformEngagement t2 d3 d4 row = .error e) ∧
    (∀ a, transformEngagement t1 d1 d2 row = .ok a →
      ∃ b, transformEngagement t2 d3 d4 row = .ok b ∧ engCore a = engCore b) := by
  unfold transformEngagement
  rcases h0 : item row 0 with e | v0 <;>
    rcases h1 : item row 1 with e1 | v1 <;>
    rcases h2 : item row 2 with e2 | v2 <;>
    rcases h3 : item row 3 with e3 | v3 <;>
    simp_all [engCore]

/-- Two Proposal transforms of the same row, under different clocks and
draws, fail identically or succeed with the same non-date fields. -/
theorem transformProposal_compare (t1 d1 t2 d3 : Nat) (row : List Value) :
    (∀ e, transformProposal t1 d1 row = .error e → transformProposal t2 d3 row = .error e) ∧
    (∀ a, transformProposal t1 d1 row = .ok a →
      ∃ b, transformProposal t2 d3 row = .ok b ∧ propCore a = propCore b) := by
  unfold transformProposal
  rcases h0 : item row 0 with e | v0 <;>
    rcases h1 : item row 1 with e1 | v1 <;>
    rcases h2 : item row 2 with e2 | v2 <;>
    rcases h3 : item row 3 with e3 | v3 <;>
    simp_all [propCore]

/-- The Engagement loop's success and non-date output do not depend on the
clock, the RNG or the draw counter. -/
theorem stageEngagements_compare (t1 t2 : Nat) (r1 r2 : Nat → Nat) :
    ∀ (rows : List (List Value)) (k1 k2 : Nat),
      ((stageEngagements t1 r1 k1 rows).2.isOk = (stageEngagements t2 r2 k2 rows).2.isOk) ∧
      (∀ l1 l2, (stageEngagements t1 r1 k1 rows).2 = .ok l1 →
        (stageEngagements t2 r2 k2 rows).2 = .ok l2 → l1.map engCore = l2.map engCore) := by
  intro rows
  induction rows with
  | nil =>
    intro k1 k2
    constructor
    · rfl
    · intro l1 l2 h1 h2
      simp only [stageEngagements] at h1 h2
      cases h1
      cases h2
      rfl
  | cons row rest ih =>
    intro k1 k2
    rcases hf1 : transformEngagement t1 (r1 k1) (r1 (k1 + 1)) row with e | a
    · have hf2 : transformEngagement t2 (r2 k2) (r2 (k2 + 1)) row = .error e :=
        (transformEngagement_compare t1 (r1 k1) (r1 (k1 + 1)) t2 (r2 k2) (r2 (k2 + 1)) row).1
          e hf1
      constructor
      · simp only [stageEngagements, hf1, hf2]
      · intro l1 l2 h1 h2
        simp only [stageEngagements, hf1] at h1
        cases h1
    · rcases (transformEngagement_compare t1 (r1 k1) (r1 (k1 + 1)) t2 (r2 k2) (r2 (k2 + 1))
        row).2 a hf1 with ⟨b, hf2, hcore⟩
      rcases ih (k1 + 2) (k2 + 2) with ⟨ihOk, ihMap⟩
      constructor
      · simp only [stageEngagements, hf1, hf2]
        rcases hr1 : (stageEngagements t1 r1 (k1 + 2) rest).2 with e | bs1 <;>
          rcases hr2 : (stageEngagements t2 r2 (k2 + 2) rest).2 with e2 | bs2 <;>
          rw [hr1, hr2] at ihOk <;> simp_all [Except.isOk, Except.toBool]
      · intro l1 l2 h1 h2
        simp only [stageEngagements, hf1, hf2] at h1 h2
        rcases hr1 : (stageEngagements t1 r1 (k1 + 2) rest).2 with e | bs1 <;> rw [hr1] at h1
        · simp at h1
        rcases hr2 : (stageEngagements t2 r2 (k2 + 2) rest).2 with e2 | bs2 <;> rw [hr2] at h2
        · simp at h2
        simp only at h1 h2
        cases h1
        cases h2
        simp only [List.map_cons, hcore, ihMap bs1 bs2 hr1 hr2]

/-- The Proposal loop's success and non-date output do not depend on the
clock, the RNG or the draw counter. -/
theorem stageProposals_compare (t1 t2 : Nat) (r1 r2 : Nat → Nat) :
    ∀ (rows : List (List Value)) (k1 k2 : Nat),
      ((stageProposals t1 r1 k1 rows).2.isOk = (stageProposals t2 r2 k2 rows).2.isOk) ∧
      (∀ l1 l2, (stageProposals t1 r1 k1 rows).2 = .ok l1 →
        (stageProposals t2 r2 k2 rows).2 = .ok l2 → l1.map propCore = l2.map propCore) := by
  intro rows
  induction rows with
  | nil =>
    intro k1 k2
    constructor
    · rfl
    · intro l1 l2 h1 h2
      simp only [stageProposals] at h1 h2
      cases h1
      cases h2
      rfl
  | cons row rest ih =>
    intro k1 k2
    rcases hf1 : transformProposal t1 (r1 k1) row with e | a
    · have hf2 : transformProposal t2 (r2 k2) row = .error e :=
        (transformProposal_compare t1 (r1 k1) t2 (r2 k2) row).1 e hf1
      constructor
      · simp only [stageProposals, hf1, hf2]
      · intro l1 l2 h1 h2
        simp only [stageProposals, hf1] at h1
        cases h1
    · rcases (transformProposal_compare t1 (r1 k1) t2 (r2 k2) row).2 a hf1 with ⟨b, hf2, hcore⟩
      rcases ih (k1 + 1) (k2 + 1) with ⟨ihOk, ihMap⟩
      constructor
      · simp only [stageProposals, hf1, hf2]
        rcases hr1 : (stageProposals t1 r1 (k1 + 1) rest).2 with e | bs1 <;>
          rcases hr2 : (stageProposals t2 r2 (k2 + 1) rest).2 with e2 | bs2 <;>
          rw [hr1, hr2] at ihOk <;> simp_all [Except.isOk, Except.toBool]
      · intro l1 l2 h1 h2
        simp only [stageProposals, hf1, hf2] at h1 h2
        rcases hr1 : (stageProposals t1 r1 (k1 + 1) rest).2 with e | bs1 <;> rw [hr1] at h1
        · simp at h1
        rcases hr2 : (stageProposals t2 r2 (k2 + 1) rest).2 with e2 | bs2 <;> rw [hr2] at h2
        · simp at h2
        simp only at h1 h2
        cases h1
        cases h2
        simp only [List.map_cons, hcore, ihMap bs1 bs2 hr1 hr2]

set_option maxHeartbeats 2000000 in
/-- Conversely, when every table is present and every staging succeeds, the
body stages exactly those contents. -/
theorem body_ok_of_parts {legacy : LegacyDB} {today : Nat} {rng : Nat → Nat}
    {sd ed pd nd hd ld ud : List (List Value)}
    {staffRows : List StaffRow} {engRows : List EngagementRow} {propRows : List ProposalRow}
    {nbRows : List NonBillableRow} {hlRows : List HoursLogRow} {lrRows : List LeaveRecordRow}
    {utRows : List UtilizationRow}
    (hsd : legacy.staff = some sd) (hed : legacy.engagement = some ed)
    (hpd : legacy.proposal = some pd) (hnd : legacy.non_billable = some nd)
    (hhd : legacy.hours_log = some hd) (hld : legacy.leave_record = some ld)
    (hud : legacy.utilization = some ud)
    (hs : (stageAll transformStaff sd).2 = .ok staffRows)
    (he : (stageEngagements today rng 0 ed).2 = .ok engRows)
    (hp : (stageProposals today rng (2 * ed.length) pd).2 = .ok propRows)
    (hn : (stageAll transformNonBillable nd).2 = .ok nbRows)
    (hh : (stageAll transformHoursLog hd).2 = .ok hlRows)
    (hl : (stageAll transformLeaveRecord ld).2 = .ok lrRows)
    (hu : (stageAll transformUtilization ud).2 = .ok utRows) :
    (transferBody legacy today rng).2 =
      .ok ⟨staffRows, engRows, propRows, nbRows, hlRows, lrRows, utRows⟩ := by
  unfold transferBody
  rw [hsd, hed, hpd, hnd, hhd, hld, hud]
  simp only [getTable]
  rw [hs, he, hp, hn, hh, hl, hu]

/-- Whether the body succeeds does not depend on the clock or the RNG, and
neither does any staged content outside the synthesized Engagement/Proposal
dates. -/
theorem transferBody_compare (legacy : LegacyDB) (t1 t2 : Nat) (r1 r2 : Nat → Nat) :
    ((transferBody legacy t1 r1).2.isOk = (transferBody legacy t2 r2).2.isOk) ∧
    (∀ a b, (transferBody legacy t1 r1).2 = .ok a → (transferBody legacy t2 r2).2 = .ok b →
      a.staff = b.staff ∧ a.non_billable = b.non_billable ∧ a.hours_log = b.hours_log ∧
      a.utilization = b.utilization ∧ a.leave_record = b.leave_record ∧
      a.engagement.map engCore = b.engagement.map engCore ∧
      a.proposal.map propCore = b.proposal.map propCore) := by
  have key : ∀ (ta tb : Nat) (ra rb : Nat → Nat) (a : DB),
      (transferBody legacy ta ra).2 = .ok a →
      ∃ b, (transferBody legacy tb rb).2 = .ok b := by
    intro ta tb ra rb a hok
    rcases body_ok_parts hok with
      ⟨sd, ed, pd, nd, hd, ld, ud, hsd, hed, hpd, hnd, hhd, hld, hud,
        hs, he, hp, hn, hh, hl, hu⟩
    have hEngOk := (stageEngagements_compare ta tb ra rb ed 0 0).1
    rw [he] at hEngOk
    rcases hE2 : (stageEngagements tb rb 0 ed).2 with e | engRows2 <;> rw [hE2] at hEngOk
    · simp [Except.isOk, Except.toBool] at hEngOk
    have hPropOk := (stageProposals_compare ta tb ra rb pd (2 * ed.length) (2 * ed.length)).1
    rw [hp] at hPropOk
    rcases hP2 : (stageProposals tb rb (2 * ed.length) pd).2 with e | propRows2 <;>
      rw [hP2] at hPropOk
    · simp [Except.isOk, Except.toBool] at hPropOk
    exact ⟨_, body_ok_of_parts hsd hed hpd hnd hhd hld hud hs hE2 hP2 hn hh hl hu⟩
  constructor
  · rcases h1 : (transferBody legacy t1 r1).2 with e1 | a
    · rcases h2 : (transferBody legacy t2 r2).2 with e2 | b
      · rfl
      · rcases key t2 t1 r2 r1 b h2 with ⟨a, ha⟩
        rw [ha] at h1
        cases h1
    · rcases key t1 t2 r1 r2 a h1 with ⟨b, hb⟩
      rw [hb]
      rfl
  · intro a b h1 h2
    rcases body_ok_parts h1 with
      ⟨sd, ed, pd, nd, hd, ld, ud, hsd, hed, hpd, hnd, hhd, hld, hud,
        hs, he, hp, hn, hh, hl, hu⟩
    rcases body_ok_parts h2 with
      ⟨sd2, ed2, pd2, nd2, hd2, ld2, ud2, hsd2, hed2, hpd2, hnd2, hhd2, hld2, hud2,
        hs2, he2, hp2, hn2, hh2, hl2, hu2⟩
    rw [hsd] at hsd2
    rw [hed] at hed2
    rw [hpd] at hpd2
    rw [hnd] at hnd2
    rw [hhd] at hhd2
    rw [hld] at hld2
    rw [hud] at hud2
    cases hsd2
    cases hed2
    cases hpd2
    cases hnd2
    cases hhd2
    cases hld2
    cases hud2
    rw [hs] at hs2
    rw [hn] at hn2
    rw [hh] at hh2
    rw [hl] at hl2
    rw [hu] at hu2
    injection hs2 with hstaff
    injection hn2 with hnb
    injection hh2 with hhl
    injection hl2 with hlr
    injection hu2 with hut
    refine ⟨hstaff, hnb, hhl, hut, hlr, ?_, ?_⟩
    · exact (stageEngagements_compare t1 t2 r1 r2 ed 0 0).2 a.engagement b.engagement he he2
    · exact (stageProposals_compare t1 t2 r1 r2 pd (2 * ed.length) (2 * ed.length)).2
        a.proposal b.proposal hp hp2

theorem eng_map_id {l1 l2 : List EngagementRow} (h : l1.map engCore = l2.map engCore) :
    l1.map EngagementRow.id = l2.map EngagementRow.id := by
  have e1 : ∀ l : List EngagementRow,
      l.map EngagementRow.id = (l.map engCore).map (fun c => c.1) := by
    intro l
    induction l with
    | nil => rfl
    | cons x xs ih => simp [engCore, ih]
  rw [e1, e1, h]

theorem eng_all_notnull {l1 l2 : List EngagementRow} (h : l1.map engCore = l2.map engCore) :
    l1.all (fun e => notNull e.name && notNull e.status) =
      l2.all (fun e => notNull e.name && notNull e.status) := by
  have e1 : ∀ l : List EngagementRow, l.all (fun e => notNull e.name && notNull e.status) =
      (l.map engCore).all (fun c => notNull c.2.1 && notNull c.2.2.2.2) := by
    intro l
    induction l with
    | nil => rfl
    | cons x xs ih => simp [engCore, ih]
  rw [e1, e1, h]

theorem prop_map_id {l1 l2 : List ProposalRow} (h : l1.map propCore = l2.map propCore) :
    l1.map ProposalRow.id = l2.map ProposalRow.id := by
  have e1 : ∀ l : List ProposalRow,
      l.map ProposalRow.id = (l.map propCore).map (fun c => c.1) := by
    intro l
    induction l with
    | nil => rfl
    | cons x xs ih => simp [propCore, ih]
  rw [e1, e1, h]

theorem prop_all_notnull {l1 l2 : List ProposalRow} (h : l1.map propCore = l2.map propCore) :
    l1.all (fun p => notNull p.name && notNull p.status) =
      l2.all (fun p => notNull p.name && notNull p.status) := by
  have e1 : ∀ l : List ProposalRow, l.all (fun p => notNull p.name && notNull p.status) =
      (l.map propCore).all (fun c => notNull c.2.1 && notNull c.2.2.2.2) := by
    intro l
    induction l with
    | nil => rfl
    | cons x xs ih => simp [propCore, ih]
  rw [e1, e1, h]

/-- The commit-time constraints never look at the synthesized dates, so two
staged states that agree outside them pass or fail together. -/
theorem checkConstraints_compare {a b : DB}
    (hstaff : a.staff = b.staff) (hnb : a.non_billable = b.non_billable)
    (hhl : a.hours_log = b.hours_log) (hut : a.utilization = b.utilization)
    (hlr : a.leave_record = b.leave_record)
    (heng : a.engagement.map engCore = b.engagement.map engCore)
    (hprop : a.proposal.map propCore = b.proposal.map propCore) :
    checkConstraints a = checkConstraints b := by
  unfold checkConstraints nodupBy
  rw [hstaff, hnb, hhl, hut, hlr, eng_map_id heng, eng_all_notnull heng,
    prop_map_id hprop, prop_all_notnull hprop]

/-! ## Bounds and distribution of the synthesized dates -/

theorem fake_date_bounds (today r : Nat) :
    today < fake_date today r ∧ fake_date today r ≤ today + 365 := by
  unfold fake_date randint
  have h : r % 365 < 365 := Nat.mod_lt r (by omega)
  omega

theorem daysInMonth_le (y m : Nat) : daysInMonth y m ≤ 31 := by
  unfold daysInMonth
  repeat' split
  all_goals omega

/-- Each value of `[1, 365]` is hit by exactly one residue of a uniform raw
draw, i.e. `randint 1 365` is uniform. -/
theorem randint_uniform (k : Nat) (h1 : 1 ≤ k) (h2 : k ≤ 365) :
    ((Finset.range 365).filter (fun r => randint 1 365 r = k)).card = 1 := by
  have hcong : ∀ r ∈ Finset.range 365, (randint 1 365 r = k ↔ r = k - 1) := by
    intro r hr
    have hlt := Finset.mem_range.1 hr
    unfold randint
    rw [Nat.mod_eq_of_lt (by omega)]
    omega
  rw [Finset.filter_congr hcong, Finset.filter_eq']
  rw [if_pos (Finset.mem_range.2 (by omega))]
  exact Finset.card_singleton _

/-- `strptime`'s guard and the amended contract coincide: the only formal
difference is `strptime`'s redundant day-regex bound `d ≤ 31`, implied by
`d ≤ daysInMonth y m`. -/
theorem strptimeGuard_iff_lenient (ys ms ds : List Char) :
    strptimeGuard ys ms ds = true ↔ lenientGuard ys ms ds = true := by
  unfold strptimeGuard lenientGuard
  have hd := daysInMonth_le (digitsToNat ys) (digitsToNat ms)
  simp only [Bool.and_eq_true, and_assoc, beq_iff_eq, decide_eq_true_eq]
  constructor
  · rintro ⟨h1, h2, h3, h4, h5, h6, h7, h8, h9, h10, h11, h12, h13, h14⟩
    exact ⟨h1, h2, h3, h4, h5, h6, h7, h8, h13, h9, h10, h11, h14⟩
  · rintro ⟨h1, h2, h3, h4, h5, h6, h7, h8, h9, h10, h11, h12, h13⟩
    exact ⟨h1, h2, h3, h4, h5, h6, h7, h8, h10, h11, h12, le_trans h13 hd, h9, h13⟩

/-- The date parser succeeds exactly on the amended contract. -/
theorem strptimeYmd_isOk_iff (s : String) :
    (strptimeYmd s).isOk = true ↔ lenientYmdFormat s = true := by
  unfold strptimeYmd lenientYmdFormat
  rcases hsplit : splitOnChar '-' s.toList with _ | ⟨ys, _ | ⟨ms, _ | ⟨ds, _ | _⟩⟩⟩ <;>
    simp only [Except.isOk, Except.toBool]
  rcases hg : strptimeGuard ys ms ds with _ | _
  · have hlen : lenientGuard ys ms ds = false := by
      rcases hl : lenientGuard ys ms ds with _ | _
      · rfl
      · have hcontra := (strptimeGuard_iff_lenient ys ms ds).2 hl
        rw [hg] at hcontra
        cases hcontra
    rw [if_neg (by simp [hg]), hlen]
  · rw [if_pos (by simp [hg]), (strptimeGuard_iff_lenient ys ms ds).1 hg]

/-! ## The claims -/

/-- C1: the spec demands that a duplicate `(staff_id, date)` LeaveRecord
pair aborts only that record, one of the two rows surviving a still
successful run.  The code's per-row `try/except IntegrityError` never fires
(`session.add` raises no `IntegrityError`; the violation surfaces at
`commit`), so the duplicate aborts the whole run: the body stages both
rows, the commit-time uniqueness check fails, everything is rolled back and
the call returns `False` with the destination unchanged. -/
theorem C1_duplicate_leave_aborts_whole_run :
    (∃ staged, (transferBody dupLeaveLegacy 100 zeroRng).2 = .ok staged ∧
      staged.leave_record.length = 2 ∧ checkConstraints staged = false) ∧
    (transfer_data (.file dupLeaveLegacy) emptyDB 100 zeroRng).success = false ∧
    (transfer_data (.file dupLeaveLegacy) emptyDB 100 zeroRng).db = emptyDB ∧
    Event.rollback ∈ (transfer_data (.file dupLeaveLegacy) emptyDB 100 zeroRng).events := by
  exact ⟨⟨_, rfl, by decide, by decide⟩, by decide, by decide, by decide⟩

/-- C2: any fatal error after the transaction is opened (missing legacy
table, bad date string, commit-time constraint violation, unexpected
transform error) fails the run; and every failed run of an existing upload
leaves the destination store exactly as it was and records a rollback. -/
theorem C2_fatal_error_rolls_back_everything :
    ∀ (legacy : LegacyDB) (dest : DB) (today : Nat) (rng : Nat → Nat),
      ((transferBody legacy today rng).2.isOk = false →
        (transfer_data (.file legacy) dest today rng).success = false) ∧
      (∀ staged, (transferBody legacy today rng).2 = .ok staged →
        checkConstraints staged = false →
        (transfer_data (.file legacy) dest today rng).success = false) ∧
      ((transfer_data (.file legacy) dest today rng).success = false →
        (transfer_data (.file legacy) dest today rng).db = dest ∧
        Event.rollback ∈ (transfer_data (.file legacy) dest today rng).events) := by
  intro legacy dest today rng
  refine ⟨transfer_body_err_fails, ?_, transfer_failed_rollback⟩
  intro staged hok hchk
  simp [transfer_data, hok, hchk]

theorem C2_witness :
    (transfer_data (.file badDateLegacy) emptyDB 100 zeroRng).success = false ∧
    (transfer_data (.file badDateLegacy) emptyDB 100 zeroRng).db = emptyDB ∧
    Event.rollback ∈ (transfer_data (.file badDateLegacy) emptyDB 100 zeroRng).events := by
  have h := C2_fatal_error_rolls_back_everything badDateLegacy emptyDB 100 zeroRng
  have hfail := h.1 (by decide)
  exact ⟨hfail, (h.2.2 hfail).1, (h.2.2 hfail).2⟩

/-- C3 (counterexample): a 0-byte upload exists on disk, so the
`os.path.exists` guard passes and the run does open the destination
transaction (and only then fails on the missing `staff` table) — against
the claim that such a path fails without opening any transaction. -/
theorem C3_counterexample_zero_byte_opens_transaction :
    (transfer_data (.file emptyFileLegacy) emptyDB 100 zeroRng).success = false ∧
    Event.beginNested ∈ (transfer_data (.file emptyFileLegacy) emptyDB 100 zeroRng).events := by
  decide

/-- C3 (amended): a non-existent upload path fails immediately, with no
transaction, no events and no destination change; a 0-byte upload also
fails and leaves the destination unchanged, but only after a destination
transaction was opened (and rolled back). -/
theorem C3_missing_file_fails_immediately :
    ∀ (dest : DB) (today : Nat) (rng : Nat → Nat),
      transfer_data .missing dest today rng = ⟨false, dest, []⟩ ∧
      ((transfer_data (.file emptyFileLegacy) dest today rng).success = false ∧
        (transfer_data (.file emptyFileLegacy) dest today rng).db = dest ∧
        Event.beginNested ∈ (transfer_data (.file emptyFileLegacy) dest today rng).events) := by
  intro dest today rng
  refine ⟨rfl, rfl, rfl, ?_⟩
  show Event.beginNested ∈ ([Event.connOpen, Event.beginNested, Event.clearTables] ++
    ([] : List Event) ++ [Event.rollback, Event.connClose])
  decide

/-- C4: after a successful transfer, each legacy staff row has exactly one
destination Staff row, and the staff transform copies id, name and email
verbatim while coercing `leave_days_remaining` with `float` and the two
flags with `bool`. -/
theorem C4_staff_rows_copied_exactly_once :
    (∀ (legacy : LegacyDB) (dest : DB) (today : Nat) (rng : Nat → Nat)
        (rows : List (List Value)) (row : List Value),
      legacy.staff = some rows → row ∈ rows →
      (transfer_data (.file legacy) dest today rng).success = true →
      ∃ s, transformStaff row = .ok s ∧
        (transfer_data (.file legacy) dest today rng).db.staff.count s = 1) ∧
    (∀ (i n em ld tl rn : Value) (rest : List Value) (q : Rat),
      pyFloat ld = .ok q →
      transformStaff ([i, n, em, ld, tl, rn] ++ rest) =
        .ok ⟨i, n, em, q, pyBool tl, pyBool rn⟩) := by
  constructor
  · intro legacy dest today rng rows row hrows hmem hsucc
    obtain ⟨hbody, hchk⟩ := transfer_ok_body hsucc
    obtain ⟨sd, ed, pd, nd, hd, ld, ud, hsd, _, _, _, _, _, _, hs, _, _, _, _, _, _⟩ :=
      body_ok_parts hbody
    rw [hrows] at hsd
    injection hsd with hsd
    subst hsd
    obtain ⟨s, hsmem, hsok⟩ := forall2_mem_left (stageAll_ok transformStaff rows _ hs) hmem
    refine ⟨s, hsok, ?_⟩
    have h1 : nodupBy StaffRow.id (transfer_data (.file legacy) dest today rng).db.staff
        = true := by
      simp only [checkConstraints, Bool.and_eq_true, and_assoc] at hchk
      exact hchk.1
    unfold nodupBy at h1
    exact List.count_eq_one_of_mem (List.Nodup.of_map _ (of_decide_eq_true h1)) hsmem
  · intro i n em ld tl rn rest q hq
    unfold transformStaff item
    simp [hq]

theorem C4_witness :
    (∃ s, transformStaff [Value.int 1, Value.str "Ann", Value.str "ann@example.com",
        Value.int 3, Value.int 0, Value.int 1] = .ok s ∧
      (transfer_data (.file demoLegacy) emptyDB 100 zeroRng).db.staff.count s = 1) ∧
    transformStaff ([Value.int 1, Value.str "B", Value.str "b@x", Value.int 2, Value.int 1,
        Value.int 0] ++ []) = .ok ⟨Value.int 1, Value.str "B", Value.str "b@x",
      ((2 : Int) : Rat), pyBool (Value.int 1), pyBool (Value.int 0)⟩ := by
  constructor
  · exact C4_staff_rows_copied_exactly_once.1 demoLegacy emptyDB 100 zeroRng _ _ rfl
      (by decide) (by decide)
  · exact C4_staff_rows_copied_exactly_once.2 _ _ _ _ _ _ [] ((2 : Int) : Rat) rfl

/-- C5: for a fixed legacy source, running the transfer twice leaves the
Staff, NonBillable, HoursLog and Utilization tables of the destination
identical after the second run to what they were after the first — the
full-replace migration is idempotent on every table without synthesized
random fields. -/
theorem C5_transfer_idempotent_deterministic_tables :
    ∀ (s : Source) (dest : DB) (t1 t2 : Nat) (r1 r2 : Nat → Nat),
      (transfer_data s (transfer_data s dest t1 r1).db t2 r2).db.staff =
        (transfer_data s dest t1 r1).db.staff ∧
      (transfer_data s (transfer_data s dest t1 r1).db t2 r2).db.non_billable =
        (transfer_data s dest t1 r1).db.non_billable ∧
      (transfer_data s (transfer_data s dest t1 r1).db t2 r2).db.hours_log =
        (transfer_data s dest t1 r1).db.hours_log ∧
      (transfer_data s (transfer_data s dest t1 r1).db t2 r2).db.utilization =
        (transfer_data s dest t1 r1).db.utilization := by
  intro s dest t1 t2 r1 r2
  cases s with
  | missing => exact ⟨rfl, rfl, rfl, rfl⟩
  | file legacy =>
    obtain ⟨hIsOk, hTables⟩ := transferBody_compare legacy t1 t2 r1 r2
    rcases h1 : (transferBody legacy t1 r1).2 with e1 | a
    · rcases h2 : (transferBody legacy t2 r2).2 with e2 | b
      · simp [transfer_data, h1, h2]
      · rw [h1, h2] at hIsOk
        simp [Except.isOk, Except.toBool] at hIsOk
    · rcases h2 : (transferBody legacy t2 r2).2 with e2 | b
      · rw [h1, h2] at hIsOk
        simp [Except.isOk, Except.toBool] at hIsOk
      · obtain ⟨hstaff, hnb, hhl, hut, hlr, heng, hprop⟩ := hTables a b h1 h2
        have hchk : checkConstraints a = checkConstraints b :=
          checkConstraints_compare hstaff hnb hhl hut hlr heng hprop
        rcases hca : checkConstraints a with _ | _
        · have hcb : checkConstraints b = false := by rw [← hchk, hca]
          simp [transfer_data, h1, h2, hca, hcb]
        · have hcb : checkConstraints b = true := by rw [← hchk, hca]
          simp only [transfer_data, h1, h2, hca, hcb, if_true]
          exact ⟨hstaff.symm, hnb.symm, hhl.symm, hut.symm⟩

theorem strptimeYmd_error_transform (s : String) :
    ∀ e, strptimeYmd s = .error e → e = .transform := by
  intro e h
  unfold strptimeYmd at h
  split at h
  · split at h
    · cases h
    · injection h with h
      exact h.symm
  · injection h with h
    exact h.symm

/-- C6 (counterexample): `datetime.strptime(s, "%Y-%m-%d")` accepts
unpadded month and day groups, so `convert_date` succeeds on
`"2024-2-3"`, a string that does not match `YYYY-MM-DD` — against the
claim that parsing succeeds exactly on that format. -/
theorem C6_counterexample_unpadded_accepted :
    (convert_date (Value.str "2024-2-3")).isOk = true ∧
      strictYmdFormat "2024-2-3" = false := by
  decide

/-- C6 (amended): string parsing succeeds exactly on a four-digit year and
one-or-two-digit month and day (zero padding optional) denoting a valid
calendar date — so `"2024-02-30"` still fails — every failure raises the
transform (date-format) error, and date values pass through unchanged. -/
theorem C6_date_parsing_contract :
    ∀ s : String,
      (((convert_date (Value.str s)).isOk = true) ↔ lenientYmdFormat s = true) ∧
      ((convert_date (Value.str s)).isOk = false →
        convert_date (Value.str s) = .error Err.transform) ∧
      (∀ d : Nat, convert_date (Value.date d) = .ok (Value.date d)) := by
  intro s
  have hmap : ∀ (z : Except Err Nat), (z.map Value.date).isOk = z.isOk := by
    intro z
    rcases z with e | d <;> rfl
  refine ⟨?_, ?_, fun d => rfl⟩
  · show ((strptimeYmd s).map Value.date).isOk = true ↔ lenientYmdFormat s = true
    rw [hmap]
    exact strptimeYmd_isOk_iff s
  · intro h
    show (strptimeYmd s).map Value.date = .error Err.transform
    rw [show (convert_date (Value.str s)) = (strptimeYmd s).map Value.date from rfl,
      hmap] at h
    rcases hst : strptimeYmd s with e | d
    · rw [strptimeYmd_error_transform s e hst]
      rfl
    · rw [hst] at h
      simp [Except.isOk, Except.toBool] at h

/-- C7: in every run's trace, every staff staging event precedes the flush,
the flush precedes every dependent-table staging event, and hence every
staff staging precedes every dependent staging: Staff is staged and
flushed strictly before Engagement, Proposal, NonBillable, HoursLog,
LeaveRecord or Utilization records are staged. -/
theorem C7_staff_staged_flushed_before_dependents :
    ∀ (s : Source) (dest : DB) (today : Nat) (rng : Nat → Nat)
      (i j : Fin (transfer_data s dest today rng).events.length),
      (((transfer_data s dest today rng).events.get i = Event.stageStaff ∧
        ((transfer_data s dest today rng).events.get j = Event.flush ∨
          isDependentStage ((transfer_data s dest today rng).events.get j) = true)) ∨
        ((transfer_data s dest today rng).events.get i = Event.flush ∧
          isDependentStage ((transfer_data s dest today rng).events.get j) = true)) →
      i < j := by
  have dep_phase : ∀ {e : Event}, isDependentStage e = true → phase e = 5 := by
    intro e h
    cases e <;> simp_all [isDependentStage, phase]
  intro s dest today rng i j hcase
  have hsorted := transfer_events_sorted s dest today rng
  rcases lt_trichotomy i j with hlt | heq | hgt
  · exact hlt
  · exfalso
    subst heq
    rcases hcase with ⟨h1, h2⟩ | ⟨h1, h2⟩
    · rcases h2 with h2 | h2
      · rw [h1] at h2
        cases h2
      · rw [h1] at h2
        exact absurd h2 (by decide)
    · rw [h1] at h2
      exact absurd h2 (by decide)
  · exfalso
    have hrel := List.Sorted.rel_get_of_lt hsorted hgt
    rcases hcase with ⟨h1, h2⟩ | ⟨h1, h2⟩
    · rw [h1] at hrel
      rcases h2 with h2 | h2
      · rw [h2] at hrel
        simp [phase] at hrel
      · rw [dep_phase h2] at hrel
        simp [phase] at hrel
    · rw [h1, dep_phase h2] at hrel
      simp [phase] at hrel

theorem C7_witness :
    (⟨3, by decide⟩ : Fin (transfer_data (.file demoLegacy) emptyDB 100 zeroRng).events.length) <
      (⟨4, by decide⟩ :
        Fin (transfer_data (.file demoLegacy) emptyDB 100 zeroRng).events.length) :=
  C7_staff_staged_flushed_before_dependents (.file demoLegacy) emptyDB 100 zeroRng
    ⟨3, by decide⟩ ⟨4, by decide⟩ (Or.inl ⟨by decide, Or.inl (by decide)⟩)

/-- C8: the synthesized date generator returns `today + randint(1, 365)`
days — strictly later than the current date and at most 365 days after it,
with each offset in `[1, 365]` hit by exactly one raw-draw residue
(uniformity) — and every Engagement `start_date`/`end_date` and Proposal
`due_date` a successful run stages satisfies those bounds. -/
theorem C8_synthesized_dates_in_window :
    (∀ (today r : Nat), today < fake_date today r ∧ fake_date today r ≤ today + 365) ∧
    (∀ k : Nat, 1 ≤ k → k ≤ 365 →
      ((Finset.range 365).filter (fun r => randint 1 365 r = k)).card = 1) ∧
    (∀ (legacy : LegacyDB) (dest : DB) (today : Nat) (rng : Nat → Nat),
      (transfer_data (.file legacy) dest today rng).success = true →
      (∀ e ∈ (transfer_data (.file legacy) dest today rng).db.engagement,
        (today < e.start_date ∧ e.start_date ≤ today + 365) ∧
        (today < e.end_date ∧ e.end_date ≤ today + 365)) ∧
      (∀ p ∈ (transfer_data (.file legacy) dest today rng).db.proposal,
        today < p.due_date ∧ p.due_date ≤ today + 365)) := by
  refine ⟨fake_date_bounds, randint_uniform, ?_⟩
  intro legacy dest today rng hsucc
  obtain ⟨hbody, _⟩ := transfer_ok_body hsucc
  obtain ⟨sd, ed, pd, nd, hd, ld, ud, _, _, _, _, _, _, _, _, he, hp, _, _, _, _⟩ :=
    body_ok_parts hbody
  constructor
  · intro e hmem
    rcases stageEngagements_dates he e hmem with ⟨⟨d1, h1⟩, ⟨d2, h2⟩⟩
    rw [h1, h2]
    exact ⟨fake_date_bounds today d1, fake_date_bounds today d2⟩
  · intro p hmem
    rcases stageProposals_dates hp p hmem with ⟨d, h1⟩
    rw [h1]
    exact fake_date_bounds today d

theorem C8_witness :
    (100 < fake_date 100 7 ∧ fake_date 100 7 ≤ 100 + 365) ∧
    ((Finset.range 365).filter (fun r => randint 1 365 r = 42)).card = 1 ∧
    100 < (⟨Value.int 1, Value.str "Eng", fake_description, fake_date 100 (zeroRng 0),
      fake_date 100 (zeroRng 1), Value.int 1, Value.str "open"⟩ : EngagementRow).start_date := by
  refine ⟨C8_synthesized_dates_in_window.1 100 7,
    C8_synthesized_dates_in_window.2.1 42 (by decide) (by decide), ?_⟩
  exact ((C8_synthesized_dates_in_window.2.2 demoLegacy emptyDB 100 zeroRng
    (by decide)).1 ⟨Value.int 1, Value.str "Eng", fake_description, fake_date 100 (zeroRng 0),
      fake_date 100 (zeroRng 1), Value.int 1, Value.str "open"⟩ (by decide)).1.1

/-- C9: whenever the legacy connection is opened (every run whose upload
path exists), the trace ends by closing it, on success, failure and
rollback paths alike. -/
theorem C9_connection_always_closed :
    ∀ (s : Source) (dest : DB) (today : Nat) (rng : Nat → Nat),
      Event.connOpen ∈ (transfer_data s dest today rng).events →
      Event.connClose ∈ (transfer_data s dest today rng).events ∧
      (transfer_data s dest today rng).events.getLast? = some Event.connClose := by
  intro s dest today rng hopen
  cases s with
  | missing => exact absurd hopen (List.not_mem_nil _)
  | file legacy =>
    rcases hres : (transferBody legacy today rng).2 with e | staged
    · simp only [transfer_data, hres]
      refine ⟨by simp, ?_⟩
      rw [List.getLast?_append_of_ne_nil _ (by simp)]
      rfl
    · rcases hchk : checkConstraints staged with _ | _
      · simp only [transfer_data, hres, hchk, Bool.false_eq_true, if_false]
        refine ⟨by simp, ?_⟩
        rw [List.getLast?_append_of_ne_nil _ (by simp)]
        rfl
      · simp only [transfer_data, hres, hchk, if_true]
        refine ⟨by simp, ?_⟩
        rw [List.getLast?_append_of_ne_nil _ (by simp)]
        rfl

theorem C9_witness :
    Event.connClose ∈ (transfer_data (.file demoLegacy) emptyDB 100 zeroRng).events ∧
    (transfer_data (.file demoLegacy) emptyDB 100 zeroRng).events.getLast? =
      some Event.connClose :=
  C9_connection_always_closed (.file demoLegacy) emptyDB 100 zeroRng (by decide)

/-- C10: `convert_date` validates nothing but strings: `None`, booleans,
integers, reals and dates all pass through unchanged with no error. -/
theorem C10_non_string_pass_through :
    convert_date Value.none = .ok Value.none ∧
    (∀ b, convert_date (Value.bool b) = .ok (Value.bool b)) ∧
    (∀ n, convert_date (Value.int n) = .ok (Value.int n)) ∧
    (∀ q, convert_date (Value.float q) = .ok (Value.float q)) ∧
    (∀ d, convert_date (Value.date d) = .ok (Value.date d)) :=
  ⟨rfl, fun _ => rfl, fun _ => rfl, fun _ => rfl, fun _ => rfl⟩
